import Mathlib

/-!
Verification of the screen-automation engine of the Uma friend-point farming
script (`uma_automation.py`) against its design specification.

The development is a shallow embedding of the engine:

* the template matcher is modelled over an abstract normalized
  cross-correlation score map (a list of `((x, y), score)` entries in
  row-major scan order, scores as rationals), since the claims only concern
  comparisons of scores with thresholds, never the float arithmetic that
  produces them;
* captured frames are modelled as grayscale images (`Img`) where needed for
  brightness sampling;
* the retrying locate-and-tap primitive and the main automation loop are
  modelled as trace-producing computations over oracles that decide the
  outcome of every capture / match / locate call, with Python exceptions
  modelled by an `Except` layer (`Fault.exn` for ordinary exceptions,
  `Fault.interrupt` for KeyboardInterrupt, which Python's `except Exception`
  does not catch).
-/

set_option maxHeartbeats 1000000

/-- A grayscale frame: `pix r c` is the luminance byte at row `r`, column
`c` (`screenshot_gray[r, c]` in the source). `rows`/`cols` are
`shape[0]`/`shape[1]`. -/
structure Img where
  rows : Nat
  cols : Nat
  pix : Nat → Nat → Nat

/-- One template-search root, as consumed by `find_template`
(`uma_automation.py:91-129`): `present` is `os.path.exists(template_file)`,
`readable` means `cv2.imread` succeeded on both the screenshot and the
template, `tw`/`th` are the grayscale template's width and height, and
`scores` is the `cv2.matchTemplate(..., TM_CCOEFF_NORMED)` score map as a
row-major list of `((x, y), score)` entries. -/
structure TmplRoot where
  present : Bool
  readable : Bool
  tw : Nat
  th : Nat
  scores : List ((Nat × Nat) × ℚ)

/-- The `cv2.minMaxLoc` maximum: the first entry (in scan order) attaining
the greatest score, or `none` on an empty map. -/
def maxEntry : List ((Nat × Nat) × ℚ) → Option ((Nat × Nat) × ℚ)
  | [] => none
  | e :: es => some (es.foldl (fun best x => if best.2 < x.2 then x else best) e)

/-- `find_template` (`uma_automation.py:91-129`): missing template file,
unreadable images, or a matcher exception give `None`; otherwise the
centroid `(max_loc.x + w // 2, max_loc.y + h // 2)` of the best match is
returned exactly when its score is `>= threshold`. An empty score map is
subsumed by the exception branch (`return None`). -/
def find_template (r : TmplRoot) (threshold : ℚ) : Option (Nat × Nat) :=
  if r.present = false then none
  else if r.readable = false then none
  else
    match maxEntry r.scores with
    | none => none
    | some lv =>
      if threshold ≤ lv.2 then some (lv.1.1 + r.tw / 2, lv.1.2 + r.th / 2) else none

/-- The multi-match location set `np.where(result >= threshold)` converted
to `(x, y)` pairs (`uma_automation.py:325-326`), in scan order. -/
def allMatches (scores : List ((Nat × Nat) × ℚ)) (threshold : ℚ) : List (Nat × Nat) :=
  (scores.filter (fun e => threshold ≤ e.2)).map (fun e => e.1)

/-- The fallback-directory scan of `find_template_multi`
(`uma_automation.py:186-208`): each directory is tried in listed order with
exactly the `find_template` logic (missing file / unreadable images /
exception all mean "continue to the next directory"), stopping at the first
match. The second component records which roots were consulted, numbered
from `i`. -/
def searchExtras (extras : List TmplRoot) (threshold : ℚ) (i : Nat) :
    Option (Nat × Nat) × List Nat :=
  match extras with
  | [] => (none, [])
  | r :: rs =>
    match find_template r threshold with
    | some c => (some c, [i])
    | none =>
      let t := searchExtras rs threshold (i + 1)
      (t.1, i :: t.2)

/-- `find_template_multi` (`uma_automation.py:178-208`): the primary
template root first (index 0), then each extra directory in listed order
(indices 1, 2, ...). Returns the first match together with the list of
consulted roots. -/
def find_template_multi (primary : TmplRoot) (extras : List TmplRoot) (threshold : ℚ) :
    Option (Nat × Nat) × List Nat :=
  match find_template primary threshold with
  | some c => (some c, [0])
  | none =>
    let t := searchExtras extras threshold 1
    (t.1, 0 :: t.2)

/-- `np.sqrt((cx - ex)**2 + (cy - ey)**2) < 50` on integer centroids,
i.e. squared Euclidean distance `< 2500` (`uma_automation.py:345-346`). -/
def nearCoord (a b : Nat × Nat) : Bool :=
  ((a.1 : Int) - (b.1 : Int)) ^ 2 + ((a.2 : Int) - (b.2 : Int)) ^ 2 < 2500

/-- One iteration of the accumulation loop of
`find_use_buttons_with_brightness_filter` (`uma_automation.py:332-351`):
form the centroid of the raw match, check it lies inside the frame, check
the luminance at the centroid exceeds the brightness threshold, and only
then keep it if it is at least 50 px away from every previously kept
coordinate. -/
def useStep (shot : Img) (tw th bt : Nat) (acc : List (Nat × Nat)) (m : Nat × Nat) :
    List (Nat × Nat) :=
  let cx := m.1 + tw / 2
  let cy := m.2 + th / 2
  if cy < shot.rows ∧ cx < shot.cols then
    if bt < shot.pix cy cx then
      if acc.all (fun e => ! nearCoord (cx, cy) e) then acc ++ [(cx, cy)] else acc
    else acc
  else acc

/-- The full accumulation loop over the raw match list. -/
def useFold (shot : Img) (tw th bt : Nat) (ms : List (Nat × Nat)) : List (Nat × Nat) :=
  ms.foldl (useStep shot tw th bt) []

/-- `find_use_buttons_with_brightness_filter` (`uma_automation.py:299-358`):
guards for a missing `use.png` template and unreadable images, then the
hardcoded `threshold = 0.8` multi-match pass followed by the brightness /
spatial-uniqueness accumulation loop. -/
def find_use_buttons_with_brightness_filter (present readable : Bool) (shot : Img)
    (tw th : Nat) (scores : List ((Nat × Nat) × ℚ)) (bt : Nat) : List (Nat × Nat) :=
  if present = false then []
  else if readable = false then []
  else useFold shot tw th bt (allMatches scores (mkRat 4 5))

/-- One step of greedy first-encountered deduplication: keep a centroid iff
it is at least 50 px from every centroid already kept. -/
def dedupStep (acc : List (Nat × Nat)) (c : Nat × Nat) : List (Nat × Nat) :=
  if acc.all (fun e => ! nearCoord c e) then acc ++ [c] else acc

/-- Greedy first-encountered deduplication of a centroid list. -/
def dedupFirst (cs : List (Nat × Nat)) : List (Nat × Nat) :=
  cs.foldl dedupStep []

/-- The candidate pipeline in the order the specification states it for
`locateAndTapFiltered` / `matchAll`: all matches above threshold, mapped to
centroids, deduplicated first, and only then filtered by brightness. This
definition follows the specification's wording and is to be compared with
`find_use_buttons_with_brightness_filter`, which is translated from the
code. -/
def specOrderPipeline (shot : Img) (tw th : Nat) (scores : List ((Nat × Nat) × ℚ))
    (bt : Nat) : List (Nat × Nat) :=
  (dedupFirst ((allMatches scores (mkRat 4 5)).map (fun m => (m.1 + tw / 2, m.2 + th / 2)))).filter
    (fun c => bt < shot.pix c.2 c.1)

/-- Concrete 100x100 frame used as test input: dim (luminance 100) on
column 6, bright (luminance 200) everywhere else. -/
def exShot : Img := ⟨100, 100, fun _ c => if c = 6 then 100 else 200⟩

/-- Concrete score map with two overlapping perfect matches one pixel
apart. -/
def exScores : List ((Nat × Nat) × ℚ) := [((5, 5), 1), ((6, 5), 1)]

/-- A search root whose template file is absent. -/
def exMissing : TmplRoot := ⟨false, true, 0, 0, []⟩

/-- A readable 2x2 template root whose score map has a single strong match
at location (3, 4). -/
def exRoot2 : TmplRoot := ⟨true, true, 2, 2, [((3, 4), mkRat 9 10)]⟩

/-- A readable 2x2 template root over the example score map. -/
def exRoot : TmplRoot := ⟨true, true, 2, 2, exScores⟩

/-- The running maximum kept by `maxEntry` is a member of the scanned list,
dominates the seed, and dominates every scanned score. -/
theorem foldlMax_spec (es : List ((Nat × Nat) × ℚ)) (b : (Nat × Nat) × ℚ) :
    es.foldl (fun best x => if best.2 < x.2 then x else best) b ∈ b :: es ∧
    b.2 ≤ (es.foldl (fun best x => if best.2 < x.2 then x else best) b).2 ∧
    ∀ e ∈ es, e.2 ≤ (es.foldl (fun best x => if best.2 < x.2 then x else best) b).2 := by
  induction es generalizing b with
  | nil => simp
  | cons x es ih =>
    have hstep : b.2 ≤ (if b.2 < x.2 then x else b).2 := by
      by_cases hbx : b.2 < x.2
      · simpa [hbx] using le_of_lt hbx
      · simp [hbx]
    have hstepx : x.2 ≤ (if b.2 < x.2 then x else b).2 := by
      by_cases hbx : b.2 < x.2
      · simp [hbx]
      · simpa [hbx] using le_of_not_lt hbx
    obtain ⟨hmem, hseed, hall⟩ := ih (if b.2 < x.2 then x else b)
    refine ⟨?_, ?_, ?_⟩
    · rcases List.mem_cons.mp hmem with h | h
      · by_cases hbx : b.2 < x.2
        · simp only [List.foldl_cons]
          rw [h]
          simp [hbx]
        · simp only [List.foldl_cons]
          rw [h]
          simp [hbx]
      · simp only [List.foldl_cons]
        exact List.mem_cons_of_mem _ (List.mem_cons_of_mem _ h)
    · simpa using le_trans hstep hseed
    · intro e he
      rcases List.mem_cons.mp he with h | h
      · subst h
        simpa using le_trans hstepx hseed
      · simpa using hall e h

/-- C5: for a present template and readable images, `find_template` returns
a coordinate exactly when the global maximum of the score map is at least
the threshold; the returned coordinate is the centroid of the matched
bounding box (top-left location plus half the template dimensions, integer
division), and no coordinate is returned when every score is below the
threshold. -/
theorem c5_find_template_centroid (r : TmplRoot) (t : ℚ)
    (hp : r.present = true) (hr : r.readable = true) (hne : r.scores ≠ []) :
    (∀ c, find_template r t = some c →
      ∃ lv, maxEntry r.scores = some lv ∧ t ≤ lv.2 ∧ (∀ e ∈ r.scores, e.2 ≤ lv.2) ∧
        c = (lv.1.1 + r.tw / 2, lv.1.2 + r.th / 2)) ∧
    ((∃ e ∈ r.scores, t ≤ e.2) → ∃ c, find_template r t = some c) ∧
    (find_template r t = none → ∀ e ∈ r.scores, e.2 < t) := by
  obtain ⟨x, xs, hl⟩ := List.exists_cons_of_ne_nil hne
  have hmax : maxEntry r.scores =
      some (xs.foldl (fun best y => if best.2 < y.2 then y else best) x) := by
    rw [hl]; rfl
  obtain ⟨hmem, hseed, hall⟩ := foldlMax_spec xs x
  set v := xs.foldl (fun best y => if best.2 < y.2 then y else best) x with hv
  have hdom : ∀ e ∈ r.scores, e.2 ≤ v.2 := by
    intro e he
    rw [hl] at he
    rcases List.mem_cons.mp he with h | h
    · rw [h]; exact hseed
    · exact hall e h
  have hft : find_template r t =
      if t ≤ v.2 then some (v.1.1 + r.tw / 2, v.1.2 + r.th / 2) else none := by
    simp [find_template, hp, hr, hmax]
  refine ⟨?_, ?_, ?_⟩
  · intro c hc
    rw [hft] at hc
    by_cases hle : t ≤ v.2
    · rw [if_pos hle] at hc
      exact ⟨v, hmax, hle, hdom, (Option.some_injective _ hc).symm⟩
    · rw [if_neg hle] at hc
      exact absurd hc (by simp)
  · rintro ⟨e, he, hte⟩
    have hle : t ≤ v.2 := le_trans hte (hdom e he)
    exact ⟨_, by rw [hft, if_pos hle]⟩
  · intro hnone e he
    rw [hft] at hnone
    by_cases hle : t ≤ v.2
    · rw [if_pos hle] at hnone
      exact absurd hnone (by simp)
    · exact lt_of_le_of_lt (hdom e he) (lt_of_not_le hle)

/-- Witness for C5 at a concrete root and threshold. -/
theorem c5_witness : ∃ c, find_template exRoot (mkRat 4 5) = some c :=
  (c5_find_template_centroid exRoot (mkRat 4 5) rfl rfl (by decide)).2.1
    ⟨((5, 5), 1), by decide, by decide⟩

/-- C6: threshold filtering is monotone. For thresholds t1 at most t2 (in
particular for every t1 strictly below t2), any single-best match accepted
by `find_template` at t2 is accepted unchanged at t1, and the multi-match
location set of the `use`-button path at t2 is a subset of the one at
t1. -/
theorem c6_threshold_monotone (t1 t2 : ℚ) (h : t1 ≤ t2) :
    (∀ r c, find_template r t2 = some c → find_template r t1 = some c) ∧
    (∀ scores m, m ∈ allMatches scores t2 → m ∈ allMatches scores t1) := by
  constructor
  · intro r c hc
    by_cases hp : r.present = false
    · simp [find_template, hp] at hc
    · by_cases hr : r.readable = false
      · simp [find_template, hp, hr] at hc
      · cases hm : maxEntry r.scores with
        | none => simp [find_template, hp, hr, hm] at hc
        | some lv =>
          simp only [find_template, hp, hr, hm, if_false] at hc ⊢
          by_cases hle : t2 ≤ lv.2
          · rw [if_pos hle] at hc
            rw [if_pos (le_trans h hle)]
            exact hc
          · rw [if_neg hle] at hc
            exact absurd hc (by simp)
  · intro scores m hm
    simp only [allMatches, List.mem_map, List.mem_filter, decide_eq_true_eq] at hm ⊢
    obtain ⟨e, ⟨he, hle⟩, hme⟩ := hm
    exact ⟨e, ⟨he, le_trans h hle⟩, hme⟩

/-- Witness for C6 at concrete thresholds 1/2 < 4/5 over the example score
map. -/
theorem c6_witness : (5, 5) ∈ allMatches exScores (mkRat 1 2) :=
  (c6_threshold_monotone (mkRat 1 2) (mkRat 4 5) (by decide)).2 exScores (5, 5) (by decide)

/-- C7: the multi-root search consults the primary root first and then each
fallback in listed order, stopping at the first matching root: when the
primary and first fallback fail and the second fallback matches, the result
is the second fallback's centroid, exactly roots 0, 1, 2 are consulted, and
nothing after the second fallback is touched (the statement holds for every
tail of additional roots). -/
theorem c7_multi_root_order (primary r1 r2 : TmplRoot) (rest : List TmplRoot) (t : ℚ)
    (c : Nat × Nat) (h0 : find_template primary t = none)
    (h1 : find_template r1 t = none) (h2 : find_template r2 t = some c) :
    (find_template_multi primary (r1 :: r2 :: rest) t).1 = some c ∧
    (find_template_multi primary (r1 :: r2 :: rest) t).2 = [0, 1, 2] := by
  constructor
  · simp [find_template_multi, searchExtras, h0, h1, h2]
  · simp [find_template_multi, searchExtras, h0, h1, h2]

/-- Witness for C7: a template present only in the second fallback root. -/
theorem c7_witness :
    (find_template_multi exMissing [exMissing, exRoot2, exMissing] (mkRat 4 5)).1 =
      some (4, 5) ∧
    (find_template_multi exMissing [exMissing, exRoot2, exMissing] (mkRat 4 5)).2 =
      [0, 1, 2] :=
  c7_multi_root_order exMissing exMissing exRoot2 [exMissing] (mkRat 4 5) (4, 5)
    (by decide) (by decide) (by decide)

/-- Either the accumulation step keeps the accumulator unchanged, or it
appends the centroid, and in the latter case the centroid passed the
in-bounds check. -/
theorem useStep_cases (shot : Img) (tw th bt : Nat) (acc : List (Nat × Nat))
    (m : Nat × Nat) :
    useStep shot tw th bt acc m = acc ∨
    (useStep shot tw th bt acc m = acc ++ [(m.1 + tw / 2, m.2 + th / 2)] ∧
      m.2 + th / 2 < shot.rows ∧ m.1 + tw / 2 < shot.cols) := by
  simp only [useStep]
  split
  · rename_i h1
    split
    · split
      · exact Or.inr ⟨rfl, h1⟩
      · exact Or.inl rfl
    · exact Or.inl rfl
  · exact Or.inl rfl

/-- Every coordinate produced by the accumulation loop over an in-bounds
accumulator is in bounds. -/
theorem useFold_bounds_aux (shot : Img) (tw th bt : Nat) :
    ∀ (ms acc : List (Nat × Nat)),
      (∀ c ∈ acc, c.2 < shot.rows ∧ c.1 < shot.cols) →
      ∀ c ∈ ms.foldl (useStep shot tw th bt) acc, c.2 < shot.rows ∧ c.1 < shot.cols := by
  intro ms
  induction ms with
  | nil => intro acc hacc c hc; exact hacc c (by simpa using hc)
  | cons m ms ih =>
    intro acc hacc c hc
    simp only [List.foldl_cons] at hc
    refine ih _ ?_ c hc
    intro d hd
    rcases useStep_cases shot tw th bt acc m with h | ⟨h, hb⟩
    · rw [h] at hd; exact hacc d hd
    · rw [h] at hd
      rcases List.mem_append.mp hd with h' | h'
      · exact hacc d h'
      · have hde : d = (m.1 + tw / 2, m.2 + th / 2) := by simpa using h'
        rw [hde]; exact ⟨hb.1, hb.2⟩

/-- A match whose centroid falls outside the frame leaves the accumulator
untouched: it is silently dropped before any brightness lookup. -/
theorem useStep_oob (shot : Img) (tw th bt : Nat) (acc : List (Nat × Nat))
    (m : Nat × Nat) (h : ¬ (m.2 + th / 2 < shot.rows ∧ m.1 + tw / 2 < shot.cols)) :
    useStep shot tw th bt acc m = acc := by
  simp only [useStep]
  rw [if_neg h]

/-- C10: the brightness lookup in `find_use_buttons_with_brightness_filter`
happens only behind the in-bounds check: every returned coordinate lies
inside the frame, and a match whose centroid falls outside the frame is
silently dropped (removing it from the match list leaves the result
unchanged). -/
theorem c10_bounds_safety (present readable : Bool) (shot : Img) (tw th : Nat)
    (scores : List ((Nat × Nat) × ℚ)) (bt : Nat) :
    (∀ c ∈ find_use_buttons_with_brightness_filter present readable shot tw th scores bt,
        c.2 < shot.rows ∧ c.1 < shot.cols) ∧
    (∀ (pre post : List (Nat × Nat)) (m : Nat × Nat),
        ¬ (m.2 + th / 2 < shot.rows ∧ m.1 + tw / 2 < shot.cols) →
        useFold shot tw th bt (pre ++ m :: post) = useFold shot tw th bt (pre ++ post)) := by
  constructor
  · intro c hc
    unfold find_use_buttons_with_brightness_filter at hc
    split at hc
    · simp at hc
    · split at hc
      · simp at hc
      · exact useFold_bounds_aux shot tw th bt _ [] (by simp) c hc
  · intro pre post m hm
    unfold useFold
    rw [List.foldl_append, List.foldl_append, List.foldl_cons,
      useStep_oob shot tw th bt _ m hm]

/-- Witness for C10 on a concrete frame and score map. -/
theorem c10_witness :
    ((7, 6) : Nat × Nat).2 < exShot.rows ∧ ((7, 6) : Nat × Nat).1 < exShot.cols :=
  (c10_bounds_safety true true exShot 2 2 exScores 170).1 (7, 6) (by decide)

/-- The predicate a centroid must pass, in the code's order, before it is
offered to the uniqueness check: its centroid is inside the frame and its
luminance strictly exceeds the brightness threshold. -/
def keepPred (shot : Img) (bt : Nat) (c : Nat × Nat) : Bool :=
  decide (c.2 < shot.rows ∧ c.1 < shot.cols) && decide (bt < shot.pix c.2 c.1)

/-- One accumulation step is a brightness/bounds test followed by a
deduplication step on the centroid. -/
theorem useStep_eq_dedup (shot : Img) (tw th bt : Nat) (acc : List (Nat × Nat))
    (m : Nat × Nat) :
    useStep shot tw th bt acc m =
      if keepPred shot bt (m.1 + tw / 2, m.2 + th / 2) then
        dedupStep acc (m.1 + tw / 2, m.2 + th / 2)
      else acc := by
  simp only [useStep, dedupStep, keepPred]
  by_cases h1 : m.2 + th / 2 < shot.rows ∧ m.1 + tw / 2 < shot.cols
  · by_cases h2 : bt < shot.pix (m.2 + th / 2) (m.1 + tw / 2)
    · simp [h1, h2]
    · simp [h1, h2]
  · simp [h1]

/-- Fold fusion: the interleaved loop of the source equals mapping to
centroids, filtering by bounds and brightness first, and deduplicating the
survivors. -/
theorem useFold_filter_aux (shot : Img) (tw th bt : Nat) :
    ∀ (ms acc : List (Nat × Nat)),
      ms.foldl (useStep shot tw th bt) acc =
        ((ms.map (fun m => (m.1 + tw / 2, m.2 + th / 2))).filter
          (keepPred shot bt)).foldl dedupStep acc := by
  intro ms
  induction ms with
  | nil => intro acc; rfl
  | cons m ms ih =>
    intro acc
    simp only [List.foldl_cons, List.map_cons]
    rw [useStep_eq_dedup]
    by_cases h : keepPred shot bt (m.1 + tw / 2, m.2 + th / 2) = true
    · rw [if_pos h, List.filter_cons_of_pos h, List.foldl_cons, ih]
    · rw [if_neg (by simpa using h), List.filter_cons_of_neg (by simpa using h), ih]

/-- C1 counterexample: on a frame where the first of two 50px-clustered
matches is dim and the second is bright, the code returns the bright
second match, while the pipeline in the specification's order
(deduplicate, then filter by brightness) first discards the second match
as a duplicate of the dim first one and then discards the dim survivor,
returning nothing. -/
theorem c1_counterexample :
    find_use_buttons_with_brightness_filter true true exShot 2 2 exScores 170 = [(7, 6)] ∧
    specOrderPipeline exShot 2 2 exScores 170 = [] := by
  constructor
  · decide
  · decide

/-- C1 (amended): the single-shot filtered locate operation returns the
candidate list produced by computing all match locations with score at
least the 0.8 threshold, mapping each to its centroid, dropping centroids
that fall outside the frame or whose luminance does not exceed the
brightness threshold, and then deduplicating the surviving candidates
(keeping the first-encountered of each 50 px cluster) — i.e. the
brightness filter runs before deduplication, not after it. -/
theorem c1_filtered_locate_pipeline (present readable : Bool) (shot : Img)
    (tw th : Nat) (scores : List ((Nat × Nat) × ℚ)) (bt : Nat)
    (hp : present = true) (hr : readable = true) :
    find_use_buttons_with_brightness_filter present readable shot tw th scores bt =
      dedupFirst (((allMatches scores (mkRat 4 5)).map
        (fun m => (m.1 + tw / 2, m.2 + th / 2))).filter (keepPred shot bt)) := by
  subst hp
  subst hr
  simp only [find_use_buttons_with_brightness_filter, Bool.true_eq_false, if_false]
  unfold useFold dedupFirst
  exact useFold_filter_aux shot tw th bt _ []

/-- Witness for C1's amended pipeline on the concrete counterexample
frame. -/
theorem c1_pipeline_witness :
    find_use_buttons_with_brightness_filter true true exShot 2 2 exScores 170 =
      dedupFirst (((allMatches exScores (mkRat 4 5)).map
        (fun m => (m.1 + 2 / 2, m.2 + 2 / 2))).filter (keepPred exShot 170)) :=
  c1_filtered_locate_pipeline true true exShot 2 2 exScores 170 rfl rfl

/-- Python faults: `exn` is an ordinary `Exception`, `interrupt` is
`KeyboardInterrupt` (which `except Exception` does not catch). -/
inductive Fault where
  | exn
  | interrupt
deriving DecidableEq

/-- Observable events of the engine: frame capture and deletion (by frame
id), taps, waits (duration in seconds), the start-of-cycle log of the main
loop, and — in the loop-level model — an opaque locate-and-tap call. -/
inductive Ev where
  | cycleStart : Ev
  | fatCall : String → Nat → Ev
  | capture : Nat → Ev
  | delete : Nat → Ev
  | tapAt : Nat → Nat → Ev
  | waitFor : ℚ → Ev
deriving DecidableEq

/-- Frame ids captured in a trace, in order. -/
def capsOf (tr : List Ev) : List Nat :=
  tr.filterMap (fun e => match e with | Ev.capture n => some n | _ => none)

/-- Frame ids deleted in a trace, in order. -/
def delsOf (tr : List Ev) : List Nat :=
  tr.filterMap (fun e => match e with | Ev.delete n => some n | _ => none)

/-- Tap coordinates in a trace, in order. -/
def tapsOf (tr : List Ev) : List (Nat × Nat) :=
  tr.filterMap (fun e => match e with | Ev.tapAt x y => some (x, y) | _ => none)

/-- Wait durations in a trace, in order. -/
def waitsOf (tr : List Ev) : List ℚ :=
  tr.filterMap (fun e => match e with | Ev.waitFor q => some q | _ => none)

@[simp] theorem capsOf_nil : capsOf [] = [] := rfl

@[simp] theorem capsOf_append (a b : List Ev) : capsOf (a ++ b) = capsOf a ++ capsOf b :=
  List.filterMap_append a b _

@[simp] theorem capsOf_start (tr : List Ev) : capsOf (Ev.cycleStart :: tr) = capsOf tr := rfl

@[simp] theorem capsOf_fat (s : String) (n : Nat) (tr : List Ev) :
    capsOf (Ev.fatCall s n :: tr) = capsOf tr := rfl

@[simp] theorem capsOf_capture (n : Nat) (tr : List Ev) :
    capsOf (Ev.capture n :: tr) = n :: capsOf tr := rfl

@[simp] theorem capsOf_delete (n : Nat) (tr : List Ev) :
    capsOf (Ev.delete n :: tr) = capsOf tr := rfl

@[simp] theorem capsOf_tap (x y : Nat) (tr : List Ev) :
    capsOf (Ev.tapAt x y :: tr) = capsOf tr := rfl

@[simp] theorem capsOf_wait (q : ℚ) (tr : List Ev) :
    capsOf (Ev.waitFor q :: tr) = capsOf tr := rfl

@[simp] theorem delsOf_nil : delsOf [] = [] := rfl

@[simp] theorem delsOf_append (a b : List Ev) : delsOf (a ++ b) = delsOf a ++ delsOf b :=
  List.filterMap_append a b _

@[simp] theorem delsOf_start (tr : List Ev) : delsOf (Ev.cycleStart :: tr) = delsOf tr := rfl

@[simp] theorem delsOf_fat (s : String) (n : Nat) (tr : List Ev) :
    delsOf (Ev.fatCall s n :: tr) = delsOf tr := rfl

@[simp] theorem delsOf_capture (n : Nat) (tr : List Ev) :
    delsOf (Ev.capture n :: tr) = delsOf tr := rfl

@[simp] theorem delsOf_delete (n : Nat) (tr : List Ev) :
    delsOf (Ev.delete n :: tr) = n :: delsOf tr := rfl

@[simp] theorem delsOf_tap (x y : Nat) (tr : List Ev) :
    delsOf (Ev.tapAt x y :: tr) = delsOf tr := rfl

@[simp] theorem delsOf_wait (q : ℚ) (tr : List Ev) :
    delsOf (Ev.waitFor q :: tr) = delsOf tr := rfl

@[simp] theorem tapsOf_nil : tapsOf [] = [] := rfl

@[simp] theorem tapsOf_append (a b : List Ev) : tapsOf (a ++ b) = tapsOf a ++ tapsOf b :=
  List.filterMap_append a b _

@[simp] theorem tapsOf_start (tr : List Ev) : tapsOf (Ev.cycleStart :: tr) = tapsOf tr := rfl

@[simp] theorem tapsOf_fat (s : String) (n : Nat) (tr : List Ev) :
    tapsOf (Ev.fatCall s n :: tr) = tapsOf tr := rfl

@[simp] theorem tapsOf_capture (n : Nat) (tr : List Ev) :
    tapsOf (Ev.capture n :: tr) = tapsOf tr := rfl

@[simp] theorem tapsOf_delete (n : Nat) (tr : List Ev) :
    tapsOf (Ev.delete n :: tr) = tapsOf tr := rfl

@[simp] theorem tapsOf_tap (x y : Nat) (tr : List Ev) :
    tapsOf (Ev.tapAt x y :: tr) = (x, y) :: tapsOf tr := rfl

@[simp] theorem tapsOf_wait (q : ℚ) (tr : List Ev) :
    tapsOf (Ev.waitFor q :: tr) = tapsOf tr := rfl

@[simp] theorem waitsOf_nil : waitsOf [] = [] := rfl

@[simp] theorem waitsOf_append (a b : List Ev) : waitsOf (a ++ b) = waitsOf a ++ waitsOf b :=
  List.filterMap_append a b _

@[simp] theorem waitsOf_start (tr : List Ev) : waitsOf (Ev.cycleStart :: tr) = waitsOf tr := rfl

@[simp] theorem waitsOf_fat (s : String) (n : Nat) (tr : List Ev) :
    waitsOf (Ev.fatCall s n :: tr) = waitsOf tr := rfl

@[simp] theorem waitsOf_capture (n : Nat) (tr : List Ev) :
    waitsOf (Ev.capture n :: tr) = waitsOf tr := rfl

@[simp] theorem waitsOf_delete (n : Nat) (tr : List Ev) :
    waitsOf (Ev.delete n :: tr) = waitsOf tr := rfl

@[simp] theorem waitsOf_tap (x y : Nat) (tr : List Ev) :
    waitsOf (Ev.tapAt x y :: tr) = waitsOf tr := rfl

@[simp] theorem waitsOf_wait (q : ℚ) (tr : List Ev) :
    waitsOf (Ev.waitFor q :: tr) = q :: waitsOf tr := rfl

/-- Oracle for one `find_and_tap` / `find_and_tap_multi` call
(`uma_automation.py:153-176, 210-229`): `cap i` is the outcome of the
screenshot taken on attempt `i` (`take_screenshot` either returns a frame
or raises: a non-zero screencap exit raises `RuntimeError` and a timeout
re-raises, in both cases without creating a file); `res f` is the matcher
verdict on frame `f` (`find_template` and `find_template_multi` catch all
their exceptions internally and return an optional coordinate, never
raising). -/
structure FTEnv where
  cap : Nat → Except Fault Nat
  res : Nat → Option (Nat × Nat)

/-- The retry loop of `find_and_tap` (`uma_automation.py:155-176`),
tracking `i` (the Python `attempt` counter) and the remaining iterations.
Per iteration: capture (a capture fault propagates immediately — the
capture happens before the `try`); on a match, tap, optionally wait
`wait_after`, and delete the frame in the `finally`; on no match, wait 1 s
unless this was the final attempt (the wait is inside the `try`, so it
precedes the `finally` deletion), delete the frame, and move to the next
attempt. `find_and_tap_multi` has the identical structure with
`find_template_multi` as the matcher, so this models both. -/
def findAndTapAux (env : FTEnv) (maxAttempts : Nat) (waitAfter : ℚ) :
    Nat → Nat → List Ev × Except Fault Bool
  | _, 0 => ([], Except.ok false)
  | i, r + 1 =>
    match env.cap i with
    | Except.error f => ([], Except.error f)
    | Except.ok frame =>
      match env.res frame with
      | some c =>
        (Ev.capture frame :: Ev.tapAt c.1 c.2 ::
          ((if 0 < waitAfter then [Ev.waitFor waitAfter] else []) ++ [Ev.delete frame]),
         Except.ok true)
      | none =>
        let t := findAndTapAux env maxAttempts waitAfter (i + 1) r
        (Ev.capture frame ::
          ((if i < maxAttempts - 1 then [Ev.waitFor 1] else []) ++ Ev.delete frame :: t.1),
         t.2)

/-- `find_and_tap(template_name, max_attempts, wait_after)`: the event
trace and the outcome (`Except.ok` for a Python `return`, `Except.error`
for an escaping exception). -/
def find_and_tap (env : FTEnv) (maxAttempts : Nat) (waitAfter : ℚ) :
    List Ev × Except Fault Bool :=
  findAndTapAux env maxAttempts waitAfter 0 maxAttempts

/-- An oracle whose very first screenshot command fails (non-zero exit or
timeout). -/
def envCapFail : FTEnv := ⟨fun _ => Except.error Fault.exn, fun _ => none⟩

/-- An oracle whose captures always succeed and whose matcher never finds
the template. -/
def envNoMatch : FTEnv := ⟨fun i => Except.ok i, fun _ => none⟩

/-- C2 counterexample: a capture failure on the first attempt escapes
`find_and_tap` as a raised fault instead of being converted to a boolean
result — the screenshot call sits outside the `try`/`finally` and
`find_and_tap` has no `except` clause at all. -/
theorem c2_counterexample :
    (find_and_tap envCapFail 3 0).2 = Except.error Fault.exn := rfl

/-- When every capture succeeds the retry loop always returns a boolean:
matcher errors were already converted to `None` inside `find_template`. -/
theorem findAndTapAux_ok (env : FTEnv) (ma : Nat) (w : ℚ)
    (hc : ∀ i, ∃ k, env.cap i = Except.ok k) :
    ∀ r i, ∃ b, (findAndTapAux env ma w i r).2 = Except.ok b := by
  intro r
  induction r with
  | zero => intro i; exact ⟨false, rfl⟩
  | succ r ih =>
    intro i
    obtain ⟨k, hk⟩ := hc i
    cases hres : env.res k with
    | some c => exact ⟨true, by simp [findAndTapAux, hk, hres]⟩
    | none =>
      obtain ⟨b, hb⟩ := ih (i + 1)
      exact ⟨b, by simp [findAndTapAux, hk, hres, hb]⟩

/-- C2 (amended): matcher and tap errors are caught below the
locate-and-tap boundary, so whenever every capture succeeds the call
returns a boolean; but a capture failure (screenshot timeout or non-zero
exit status) is not caught there — it escapes `find_and_tap` (and
`find_and_tap_multi`, which has the identical structure) as a raised
fault, to be handled only by the top-level automation loop. -/
theorem c2_fault_boundary (env : FTEnv) (n : Nat) (w : ℚ) :
    ((∀ i, ∃ k, env.cap i = Except.ok k) →
      ∃ b, (find_and_tap env n w).2 = Except.ok b) ∧
    (∀ f, env.cap 0 = Except.error f → 1 ≤ n →
      (find_and_tap env n w).2 = Except.error f) := by
  constructor
  · intro hc
    exact findAndTapAux_ok env n w hc n 0
  · intro f hf hn
    cases n with
    | zero => exact absurd hn (by simp)
    | succ m => simp [find_and_tap, findAndTapAux, hf]

/-- Witness for C2's amended boundary statement. -/
theorem c2_witness : (find_and_tap envCapFail 3 0).2 = Except.error Fault.exn :=
  (c2_fault_boundary envCapFail 3 0).2 Fault.exn rfl (by decide)

/-- Trace shape of the retry loop against a never-matching frame source:
starting at attempt `i` with `r` iterations left out of `i + r` total,
the loop returns `False`, captures exactly `r` frames, sleeps exactly
`r - 1` one-second inter-attempt delays, and never taps. -/
theorem findAndTapAux_nomatch (env : FTEnv) (w : ℚ)
    (hc : ∀ i, ∃ k, env.cap i = Except.ok k) (hm : ∀ f, env.res f = none) :
    ∀ r i, (findAndTapAux env (i + r) w i r).2 = Except.ok false ∧
      (capsOf (findAndTapAux env (i + r) w i r).1).length = r ∧
      waitsOf (findAndTapAux env (i + r) w i r).1 = List.replicate (r - 1) 1 ∧
      tapsOf (findAndTapAux env (i + r) w i r).1 = [] := by
  intro r
  induction r with
  | zero => intro i; exact ⟨rfl, rfl, rfl, rfl⟩
  | succ r ih =>
    intro i
    obtain ⟨k, hk⟩ := hc i
    have hrw : i + (r + 1) = (i + 1) + r := by omega
    have hih := ih (i + 1)
    rw [← hrw] at hih
    obtain ⟨hres, hcaps, hwaits, htaps⟩ := hih
    have hunfold : findAndTapAux env (i + (r + 1)) w i (r + 1) =
        match env.cap i with
        | Except.error f => ([], Except.error f)
        | Except.ok frame =>
          match env.res frame with
          | some c =>
            (Ev.capture frame :: Ev.tapAt c.1 c.2 ::
              ((if 0 < w then [Ev.waitFor w] else []) ++ [Ev.delete frame]),
             Except.ok true)
          | none =>
            (Ev.capture frame ::
              ((if i < i + (r + 1) - 1 then [Ev.waitFor 1] else []) ++
                Ev.delete frame :: (findAndTapAux env (i + (r + 1)) w (i + 1) r).1),
             (findAndTapAux env (i + (r + 1)) w (i + 1) r).2) := rfl
    have hstep : findAndTapAux env (i + (r + 1)) w i (r + 1) =
        (Ev.capture k ::
          ((if 0 < r then [Ev.waitFor 1] else []) ++
            Ev.delete k :: (findAndTapAux env (i + (r + 1)) w (i + 1) r).1),
         (findAndTapAux env (i + (r + 1)) w (i + 1) r).2) := by
      rw [hunfold]
      simp only [hk, hm k]
      simp only [show (i < i + (r + 1) - 1) ↔ (0 < r) from by omega]
    rcases Nat.eq_zero_or_pos r with hr | hr
    · subst hr
      refine ⟨?_, ?_, ?_, ?_⟩ <;> simp [findAndTapAux, hk, hm k]
    · have hrep : (1 : ℚ) :: List.replicate (r - 1) 1 = List.replicate r 1 := by
        conv_rhs => rw [show r = r - 1 + 1 from by omega]
        rw [List.replicate_succ]
      refine ⟨?_, ?_, ?_, ?_⟩
      · rw [hstep]; exact hres
      · rw [hstep, if_pos hr]
        simp [hcaps]
      · rw [hstep, if_pos hr]
        simp only [waitsOf_capture, waitsOf_append, waitsOf_wait, waitsOf_nil,
          waitsOf_delete, hwaits, List.nil_append, List.singleton_append]
        rw [hrep]
        simp
      · rw [hstep, if_pos hr]
        simp [htaps]

/-- C3: against a frame source that never matches, `find_and_tap` with
`max_attempts = n` (any n at least 1) performs exactly n screenshot
captures, exactly n - 1 one-second inter-attempt delays (none after the
final attempt), never taps, and returns failure. -/
theorem c3_retry_budget (env : FTEnv) (n : Nat) (w : ℚ) (_hn : 1 ≤ n)
    (hc : ∀ i, ∃ k, env.cap i = Except.ok k) (hm : ∀ f, env.res f = none) :
    (find_and_tap env n w).2 = Except.ok false ∧
    (capsOf (find_and_tap env n w).1).length = n ∧
    waitsOf (find_and_tap env n w).1 = List.replicate (n - 1) 1 ∧
    tapsOf (find_and_tap env n w).1 = [] := by
  have h := findAndTapAux_nomatch env w hc hm n 0
  simpa [find_and_tap] using h

/-- Witness for C3 at the specification's n = 3. -/
theorem c3_witness :
    (find_and_tap envNoMatch 3 0).2 = Except.ok false ∧
    (capsOf (find_and_tap envNoMatch 3 0).1).length = 3 ∧
    waitsOf (find_and_tap envNoMatch 3 0).1 = List.replicate 2 1 ∧
    tapsOf (find_and_tap envNoMatch 3 0).1 = [] :=
  c3_retry_budget envNoMatch 3 0 (by decide) (fun i => ⟨i, rfl⟩) (fun _ => rfl)

/-- In every `find_and_tap` trace the captured frame ids equal the deleted
frame ids, in order: the `finally` block releases each frame on match
success, match failure, and any fault raised after the capture, and a
failed capture creates no file. -/
theorem findAndTapAux_caps_eq_dels (env : FTEnv) (ma : Nat) (w : ℚ) :
    ∀ r i, capsOf (findAndTapAux env ma w i r).1 = delsOf (findAndTapAux env ma w i r).1 := by
  intro r
  induction r with
  | zero => intro i; rfl
  | succ r ih =>
    intro i
    cases hk : env.cap i with
    | error f => simp [findAndTapAux, hk]
    | ok k =>
      cases hres : env.res k with
      | some c =>
        by_cases hw : 0 < w <;>
          simp [findAndTapAux, hk, hres, hw]
      | none =>
        by_cases hcond : i < ma - 1 <;>
          simp [findAndTapAux, hk, hres, hcond, ih (i + 1)]

/-- Oracle and configuration for the main automation loop
(`run_automation_loop`, `uma_automation.py:418-678`). Outcomes of the
engine's primitive calls are read off sequential streams: `fat n s` is the
outcome of the n-th `find_and_tap` / `find_and_tap_multi` call overall,
asked for template `s` (`Except.error` models an exception escaping the
call, see `c2_fault_boundary`); `cap n` the outcome of the n-th direct
`take_screenshot` peek; `ftm n s` the verdict of the n-th direct
`find_template` call on its fresh frame; `useB n` the list returned by the
n-th `find_use_buttons_with_brightness_filter` call. The remaining fields
are the values read from `config.json` (`manual_choose`, the upper-cased
filter preferences, wait times, attempt counts, and the fixed tap
coordinate of step 11). -/
structure LoopEnv where
  fat : Nat → String → Except Fault Bool
  cap : Nat → Except Fault Nat
  ftm : Nat → String → Option (Nat × Nat)
  useB : Nat → List (Nat × Nat)
  manualChoose : Bool
  rarity : String
  speciality : String
  waitCareer : ℚ
  attemptsNext : Nat
  waitStartCareer : ℚ
  waitSkip : ℚ
  tapAfterSkip : Nat × Nat
  waitConfirm : ℚ
  waitLoop : ℚ

/-- Cursor into the oracle streams of a `LoopEnv`. -/
structure LoopSt where
  nFat : Nat
  nCap : Nat
  nFt : Nat
  nUse : Nat
deriving DecidableEq

/-- Loop-level computations: a state transformer producing a fault-or-value
result and an event trace. -/
def M (α : Type) : Type := LoopSt → Except Fault α × List Ev × LoopSt

/-- Return a pure value with an empty trace. -/
def M.pure (a : α) : M α := fun st => (Except.ok a, [], st)

/-- Sequencing: a raised fault short-circuits the continuation, traces
concatenate. -/
def M.bind (x : M α) (f : α → M β) : M β := fun st =>
  match x st with
  | (Except.error e, tr, st1) => (Except.error e, tr, st1)
  | (Except.ok a, tr, st1) =>
    let y := f a st1
    (y.1, tr ++ y.2.1, y.2.2)

instance : Monad M where
  pure := M.pure
  bind := M.bind

@[simp] theorem M_bind_apply (x : M α) (f : α → M β) (st : LoopSt) :
    (x >>= f) st =
      match x st with
      | (Except.error e, tr, st1) => (Except.error e, tr, st1)
      | (Except.ok a, tr, st1) =>
        let y := f a st1
        (y.1, tr ++ y.2.1, y.2.2) := rfl

@[simp] theorem M_pure_apply (a : α) (st : LoopSt) :
    (Pure.pure a : M α) st = (Except.ok a, [], st) := rfl

/-- One `find_and_tap` / `find_and_tap_multi` call from the sequencer:
consumes the next entry of the `fat` stream; records the template and the
attempt budget. -/
def fatE (env : LoopEnv) (name : String) (attempts : Nat) : M Bool := fun st =>
  (env.fat st.nFat name, [Ev.fatCall name attempts], { st with nFat := st.nFat + 1 })

/-- One direct `take_screenshot` call: a successful capture creates (and
logs) a frame; a failed screencap command raises without creating a file
(`uma_automation.py:66-89`). -/
def capE (env : LoopEnv) : M Nat := fun st =>
  match env.cap st.nCap with
  | Except.error f => (Except.error f, [], { st with nCap := st.nCap + 1 })
  | Except.ok frame => (Except.ok frame, [Ev.capture frame], { st with nCap := st.nCap + 1 })

/-- One direct `find_template` call on a fresh frame: never raises (all its
exceptions are converted to `None` internally). -/
def ftE (env : LoopEnv) (name : String) : M (Option (Nat × Nat)) := fun st =>
  (Except.ok (env.ftm st.nFt name), [], { st with nFt := st.nFt + 1 })

/-- One `find_use_buttons_with_brightness_filter` call: never raises, its
result is drawn from the `useB` stream. -/
def useE (env : LoopEnv) : M (List (Nat × Nat)) := fun st =>
  (Except.ok (env.useB st.nUse), [], { st with nUse := st.nUse + 1 })

/-- `tap_coordinate`: its timeout and command failures are caught and
logged inside the helper (`uma_automation.py:131-146`), so it never
raises. -/
def tapE (x y : Nat) : M Unit := fun st => (Except.ok (), [Ev.tapAt x y], st)

/-- `self.wait` / `time.sleep`. -/
def waitE (q : ℚ) : M Unit := fun st => (Except.ok (), [Ev.waitFor q], st)

/-- The start-of-cycle log line of `run_automation_loop`. -/
def emitStart : M Unit := fun st => (Except.ok (), [Ev.cycleStart], st)

/-- The capture / `try` / `finally os.remove` pattern used by every peek of
the sequencer and by the TP-charge capture: the frame is deleted after the
body on every outcome of the body, fault included; a failed capture creates
no file and propagates. -/
def scopedCapture (env : LoopEnv) (body : Nat → M α) : M α := fun st =>
  match capE env st with
  | (Except.error f, tr, st1) => (Except.error f, tr, st1)
  | (Except.ok frame, tr, st1) =>
    let y := body frame st1
    (y.1, tr ++ y.2.1 ++ [Ev.delete frame], y.2.2)

/-- Python's `except Exception` wrapper: converts an ordinary exception to
the default value; a `KeyboardInterrupt` is not an `Exception` and
propagates. -/
def catchExnWith (d : α) (x : M α) : M α := fun st =>
  match x st with
  | (Except.error Fault.exn, tr, st1) => (Except.ok d, tr, st1)
  | other => other

/-- The rarity tap coordinates of the filter sequence
(`uma_automation.py:244-248`); `none` models `rarity_choice not in
rarity_coords`. -/
def rarityCoords : String → Option (Nat × Nat)
  | "R" => some (102, 408)
  | "SR" => some (437, 414)
  | "SSR" => some (777, 410)
  | _ => none

/-- The speciality tap coordinates of the filter sequence
(`uma_automation.py:249-256`). -/
def specialityCoords : String → Option (Nat × Nat)
  | "SPEED" => some (102, 627)
  | "STAMINA" => some (444, 623)
  | "POWER" => some (786, 618)
  | "GUTS" => some (109, 741)
  | "WIT" => some (442, 732)
  | "PAL" => some (777, 731)
  | _ => none

/-- `run_filter_sequence` (`uma_automation.py:231-273`): two fixed taps,
the configured rarity and speciality taps (after validating both choices),
then confirmation via `find_and_tap("ok.png", 10)`. -/
def runFilterSequenceE (env : LoopEnv) : M Bool := do
  tapE 747 1623
  waitE (mkRat 1 2)
  tapE 786 203
  waitE (mkRat 1 2)
  match rarityCoords env.rarity with
  | none => M.pure false
  | some rc =>
    match specialityCoords env.speciality with
    | none => M.pure false
    | some sc => do
      tapE rc.1 rc.2
      waitE (mkRat 1 5)
      tapE sc.1 sc.2
      waitE (mkRat 1 5)
      let b ← fatE env "ok.png" 10
      if b then do
        waitE (mkRat 1 2)
        M.pure true
      else M.pure false

/-- `manual_choose_friend` (`uma_automation.py:275-297`): tap `plus.png`;
try `following.png` directly; on failure run the filter sequence and try
`following.png` once more; the final verdict is the boolean outcome. -/
def manualChooseE (env : LoopEnv) : M Bool := do
  let b1 ← fatE env "plus.png" 10
  if b1 then do
    let b2 ← fatE env "following.png" 5
    if b2 then M.pure true
    else do
      let fs ← runFilterSequenceE env
      if fs then fatE env "following.png" 5
      else M.pure false
  else M.pure false

/-- `tp_charge` (`uma_automation.py:360-416`): restore, a scoped capture
feeding `find_use_buttons_with_brightness_filter` whose first hit is
tapped, then max / ok / close confirmations; the whole body is wrapped in
`except Exception: return False`. -/
def tpChargeE (env : LoopEnv) : M Bool :=
  catchExnWith false (do
    let b1 ← fatE env "restore.png" 10
    if b1 then do
      waitE (mkRat 1 2)
      let hit ← scopedCapture env (fun _ => do
        let cs ← useE env
        match cs with
        | [] => M.pure false
        | c :: _ => do
          tapE c.1 c.2
          M.pure true)
      if hit then do
        waitE (mkRat 1 2)
        let b2 ← fatE env "max.png" 10
        if b2 then do
          let b3 ← fatE env "ok.png" 10
          if b3 then do
            waitE (mkRat 3 2)
            let b4 ← fatE env "close.png" 20
            if b4 then do
              waitE (mkRat 1 2)
              M.pure true
            else M.pure false
          else M.pure false
        else M.pure false
      else M.pure false
    else M.pure false)

/-- The local loop of steps 6-6.5 (`uma_automation.py:480-506`): tap
`start_career_1.png`; peek for `restore.png`; on a hit run `tp_charge` and
loop on success; otherwise leave the loop. Returns `true` when the loop
exited by one of its `break` paths, `false` when the fuel ran out (the
Python loop would still be running). -/
def step6Loop (env : LoopEnv) : Nat → M Bool
  | 0 => M.pure false
  | fuel + 1 => do
    let b ← fatE env "start_career_1.png" 10
    if b then do
      waitE (mkRat 1 2)
      let dec ← scopedCapture env (fun _ => do
        let c ← ftE env "restore.png"
        match c with
        | some _ => do
          let tc ← tpChargeE env
          M.pure (some tc)
        | none => M.pure none)
      match dec with
      | some true => step6Loop env fuel
      | some false => M.pure true
      | none => M.pure true
    else M.pure true

/-- The five taps of step 14.5 with their half-second sleeps
(`uma_automation.py:604-607`). -/
def tapFive (x y : Nat) : M Unit := do
  tapE x y
  waitE (mkRat 1 2)
  tapE x y
  waitE (mkRat 1 2)
  tapE x y
  waitE (mkRat 1 2)
  tapE x y
  waitE (mkRat 1 2)
  tapE x y
  waitE (mkRat 1 2)

/-- Step 14.5 (`uma_automation.py:600-612` and its copy at 629-641): peek
for `next.png`; if present tap it five times. -/
def step145 (env : LoopEnv) : M Unit :=
  scopedCapture env (fun _ => do
    let c ← ftE env "next.png"
    match c with
    | some xy => tapFive xy.1 xy.2
    | none => M.pure ())

/-- Step 12 (`uma_automation.py:543-585`): peek for `skip_off.png`, double
tap it, then peek again and branch on which of the three skip-state
templates is present. -/
def step12E (env : LoopEnv) : M Unit :=
  scopedCapture env (fun _ => do
    let c ← ftE env "skip_off.png"
    match c with
    | some xy => do
      tapE xy.1 xy.2
      waitE (mkRat 1 5)
      tapE xy.1 xy.2
      waitE (mkRat 1 5)
      scopedCapture env (fun _ => do
        let c2 ← ftE env "skip_off.png"
        match c2 with
        | some ab => do
          tapE ab.1 ab.2
          waitE (mkRat 1 5)
          tapE ab.1 ab.2
        | none => do
          let c3 ← ftE env "skip_on_1.png"
          match c3 with
          | some cd => tapE cd.1 cd.2
          | none => do
            let _ ← ftE env "skip_on_2.png"
            M.pure ())
    | none => M.pure ())

/-- The recovery loop around step 16 (`uma_automation.py:624-658`): try
`give_up_1.png`; on failure re-run the step 14.5 peek and the step 15 menu
tap (whose own failure also just continues the loop) and retry. Returns
`true` when `give_up_1.png` was finally tapped, `false` on fuel
exhaustion. -/
def step16Loop (env : LoopEnv) : Nat → M Bool
  | 0 => M.pure false
  | fuel + 1 => do
    let b ← fatE env "give_up_1.png" 5
    if b then M.pure true
    else do
      step145 env
      let _ ← fatE env "menu.png" 10
      step16Loop env fuel

/-- Verdict of one cycle of the main loop: `cont` — the cycle ended or hit
a `continue`, the loop starts the next cycle; `stop` — the `break` of the
failed manual selection (`uma_automation.py:470-472`); `spin` — an inner
loop did not terminate within the modelling fuel (the Python loop is still
running inside the cycle). -/
inductive CycleRes where
  | cont
  | stop
  | spin
deriving DecidableEq

/-- A phase guard: on locate failure the cycle ends with `continue`
(restart), otherwise the cycle proceeds. -/
def orRestart (b : Bool) (rest : M CycleRes) : M CycleRes :=
  if b then rest else M.pure CycleRes.cont

/-- Steps 17-18 (`uma_automation.py:660-668`): `give_up_2.png` then the
end-of-cycle wait. -/
def seg17 (env : LoopEnv) : M CycleRes := do
  let b ← fatE env "give_up_2.png" 5
  orRestart b (do
    waitE env.waitLoop
    M.pure CycleRes.cont)

/-- Step 16 recovery loop, then steps 17-18. -/
def seg16 (env : LoopEnv) (fuel : Nat) : M CycleRes := do
  let done ← step16Loop env fuel
  if done then seg17 env else M.pure CycleRes.spin

/-- Steps 13-16 (`uma_automation.py:587-658`): confirm, the two waits, the
step 14.5 peek, the menu tap, then the step 16 loop. -/
def seg13 (env : LoopEnv) (fuel : Nat) : M CycleRes := do
  let b ← fatE env "confirm.png" 10
  orRestart b (do
    waitE 1
    waitE env.waitConfirm
    step145 env
    let b2 ← fatE env "menu.png" 10
    orRestart b2 (seg16 env fuel))

/-- Steps 7-12 (`uma_automation.py:513-585`): `start_career_2.png`, waits,
`skip.png`, `skip_btn.png`, the fixed tap after skip, and the skip-state
dance of step 12. -/
def seg7 (env : LoopEnv) (fuel : Nat) : M CycleRes := do
  let b ← fatE env "start_career_2.png" 10
  orRestart b (do
    waitE env.waitStartCareer
    let b2 ← fatE env "skip.png" 10
    orRestart b2 (do
      waitE (mkRat 1 2)
      let b3 ← fatE env "skip_btn.png" 10
      orRestart b3 (do
        waitE env.waitSkip
        tapE env.tapAfterSkip.1 env.tapAfterSkip.2
        step12E env
        seg13 env fuel)))

/-- Step 6 with its local TP-charge loop and the post-loop quick recheck of
`start_career_1.png` (`uma_automation.py:476-511`). -/
def seg6 (env : LoopEnv) (fuel : Nat) : M CycleRes := do
  let exited ← step6Loop env fuel
  if exited then do
    let b ← fatE env "start_career_1.png" 1
    orRestart b (seg7 env fuel)
  else M.pure CycleRes.spin

/-- Step 5 (`uma_automation.py:466-474`): when manual choosing is enabled a
failed `manual_choose_friend` breaks out of the whole loop; otherwise the
phase is skipped. -/
def seg5 (env : LoopEnv) (fuel : Nat) : M CycleRes :=
  if env.manualChoose then do
    let mc ← manualChooseE env
    if mc then seg6 env fuel else M.pure CycleRes.stop
  else seg6 env fuel

/-- One full cycle of `run_automation_loop` (`uma_automation.py:422-670`):
steps 1-4 (career, next twice, auto-select with its ok and next), then
step 5 and the rest of the cycle. -/
def cycleE (env : LoopEnv) (fuel : Nat) : M CycleRes := do
  emitStart
  let b1 ← fatE env "Career.png" 10
  orRestart b1 (do
    waitE env.waitCareer
    let b2 ← fatE env "next.png" env.attemptsNext
    orRestart b2 (do
      waitE (mkRat 1 2)
      let b3 ← fatE env "next.png" env.attemptsNext
      orRestart b3 (do
        waitE (mkRat 1 2)
        let b4 ← fatE env "auto_select_1.png" 10
        orRestart b4 (do
          waitE (mkRat 1 2)
          let b5 ← fatE env "ok.png" 10
          orRestart b5 (do
            waitE (mkRat 1 2)
            let b6 ← fatE env "next.png" 10
            orRestart b6 (do
              waitE 2
              seg5 env fuel))))))

/-- Global outcome of the loop under a cycle budget: still `running` when
the fuel is exhausted, `interrupted` on `KeyboardInterrupt`, or
`stoppedManual` on the fatal manual-selection failure. -/
inductive Outcome where
  | running
  | interrupted
  | stoppedManual
deriving DecidableEq

/-- The `while True` of `run_automation_loop` with its top-level handlers
(`uma_automation.py:672-678`): `KeyboardInterrupt` breaks the loop, any
other exception is logged, followed by the fixed ten-second cool-down
sleep, and the next cycle starts from the initial phase. -/
def runCycles (env : LoopEnv) : Nat → Nat → LoopSt → Outcome × List Ev
  | 0, _, _ => (Outcome.running, [])
  | fuel + 1, cfl, st =>
    match cycleE env cfl st with
    | (Except.error Fault.interrupt, tr, _) => (Outcome.interrupted, tr)
    | (Except.error Fault.exn, tr, st1) =>
      let t := runCycles env fuel cfl st1
      (t.1, tr ++ Ev.waitFor 10 :: t.2)
    | (Except.ok CycleRes.stop, tr, _) => (Outcome.stoppedManual, tr)
    | (Except.ok CycleRes.spin, tr, _) => (Outcome.running, tr)
    | (Except.ok CycleRes.cont, tr, st1) =>
      let t := runCycles env fuel cfl st1
      (t.1, tr ++ t.2)

/-- Fresh oracle cursor at process start. -/
def initSt : LoopSt := ⟨0, 0, 0, 0⟩

/-- `main` (`uma_automation.py:680-691`): a failed startup returns exit
code 1; otherwise `run_automation_loop` runs and, whenever it terminates
(by interrupt or by the fatal manual-selection failure), `main` returns 0.
`none` means the loop is still running at the given fuel. -/
def mainE (startupOk : Bool) (env : LoopEnv) (fuel cfl : Nat) : Option Nat :=
  if startupOk then
    match (runCycles env fuel cfl initSt).1 with
    | Outcome.running => none
    | _ => some 0
  else some 1

/-- A concrete loop oracle: manual choosing enabled, every locate-and-tap
succeeds except `following.png`, which is never found. -/
def envManual : LoopEnv where
  fat := fun _ s => if s = "following.png" then Except.ok false else Except.ok true
  cap := fun n => Except.ok n
  ftm := fun _ _ => none
  useB := fun _ => []
  manualChoose := true
  rarity := "SSR"
  speciality := "POWER"
  waitCareer := 10
  attemptsNext := 10
  waitStartCareer := 2
  waitSkip := 1
  tapAfterSkip := (249, 948)
  waitConfirm := 5
  waitLoop := 5

/-- C4 counterexample: when manual selection is enabled and the
`following.png` match fails both before and after the filter sequence, the
automation loop does terminate, but the process then returns exit code 0 —
not the non-zero distinguishable signal the claim asserts; the only
non-zero exit is the startup-failure path of `main`. -/
theorem c4_counterexample :
    (runCycles envManual 1 1 initSt).1 = Outcome.stoppedManual ∧
    mainE true envManual 1 1 = some 0 := by
  constructor
  · rfl
  · rfl

/-- C4 (amended): with manual selection enabled, if the direct match of the
`following.png` indicator fails both before and after the filter
sub-sequence (while the surrounding phases succeed and the configured
rarity/speciality pair is valid), the automation loop terminates entirely —
this is the one phase failure that breaks the loop instead of restarting
the cycle — but the process exit code is 0, the same as for a graceful
interruption; the failure is distinguishable only in the log, not in the
exit status. -/
theorem c4_manual_failure_stops_loop (env : LoopEnv)
    (hman : env.manualChoose = true)
    (hCareer : ∀ n, env.fat n "Career.png" = Except.ok true)
    (hNext : ∀ n, env.fat n "next.png" = Except.ok true)
    (hAuto : ∀ n, env.fat n "auto_select_1.png" = Except.ok true)
    (hOk : ∀ n, env.fat n "ok.png" = Except.ok true)
    (hPlus : ∀ n, env.fat n "plus.png" = Except.ok true)
    (hFol : ∀ n, env.fat n "following.png" = Except.ok false)
    (rc sc : Nat × Nat)
    (hrar : rarityCoords env.rarity = some rc)
    (hspec : specialityCoords env.speciality = some sc) :
    ∀ fuel cfl st, (runCycles env (fuel + 1) cfl st).1 = Outcome.stoppedManual ∧
      mainE true env (fuel + 1) cfl = some 0 := by
  have hcyc : ∀ cfl st, (cycleE env cfl st).1 = Except.ok CycleRes.stop := by
    intro cfl st
    simp [cycleE, seg5, manualChooseE, runFilterSequenceE, orRestart, fatE, tapE,
      waitE, emitStart, M.pure, hman, hCareer, hNext, hAuto, hOk, hPlus, hFol,
      hrar, hspec]
  have hrun : ∀ fuel cfl st, (runCycles env (fuel + 1) cfl st).1 = Outcome.stoppedManual := by
    intro fuel cfl st1
    have h := hcyc cfl st1
    rcases hx : cycleE env cfl st1 with ⟨r, tr, st2⟩
    rw [hx] at h
    simp only [Prod.fst] at h
    subst h
    simp [runCycles, hx]
  intro fuel cfl st
  refine ⟨hrun fuel cfl st, ?_⟩
  simp [mainE, hrun fuel cfl initSt]

/-- Witness for C4's amended statement on the concrete oracle, at a larger
fuel. -/
theorem c4_witness :
    (runCycles envManual 3 2 initSt).1 = Outcome.stoppedManual ∧
    mainE true envManual 3 2 = some 0 :=
  c4_manual_failure_stops_loop envManual rfl (fun _ => rfl) (fun _ => rfl)
    (fun _ => rfl) (fun _ => rfl) (fun _ => rfl) (fun _ => rfl)
    (777, 410) (786, 618) rfl rfl 2 2 initSt

/-- A loop computation that never escapes with `KeyboardInterrupt`. -/
def NoIntr (x : M α) : Prop := ∀ st, (x st).1 ≠ Except.error Fault.interrupt

/-- A cycle fragment that neither escapes with `KeyboardInterrupt` nor
requests the loop-breaking `stop` verdict. -/
def Tame (x : M CycleRes) : Prop :=
  ∀ st, (x st).1 ≠ Except.error Fault.interrupt ∧ (x st).1 ≠ Except.ok CycleRes.stop

/-- An oracle that never injects a `KeyboardInterrupt`. -/
def NoIntrEnv (env : LoopEnv) : Prop :=
  (∀ n s, env.fat n s ≠ Except.error Fault.interrupt) ∧
  (∀ n, env.cap n ≠ Except.error Fault.interrupt)

theorem noIntr_Mpure (a : α) : NoIntr (M.pure a) := by
  intro st
  simp [M.pure]

theorem noIntr_bind {x : M α} {f : α → M β} (hx : NoIntr x)
    (hf : ∀ a, NoIntr (f a)) : NoIntr (x >>= f) := by
  intro st
  have h1 := hx st
  rcases hx2 : x st with ⟨r, tr, st1⟩
  rw [hx2] at h1
  show ((x >>= f) st).1 ≠ _
  rw [M_bind_apply, hx2]
  cases r with
  | error e => simpa using h1
  | ok a => simpa using hf a st1

theorem tame_bind {x : M α} {f : α → M CycleRes} (hx : NoIntr x)
    (hf : ∀ a, Tame (f a)) : Tame (x >>= f) := by
  intro st
  have h1 := hx st
  rcases hx2 : x st with ⟨r, tr, st1⟩
  rw [hx2] at h1
  have hb : (x >>= f) st =
      match (r, tr, st1) with
      | (Except.error e, tr, st1) => (Except.error e, tr, st1)
      | (Except.ok a, tr, st1) =>
        let y := f a st1
        (y.1, tr ++ y.2.1, y.2.2) := by
    rw [M_bind_apply, hx2]
  cases r with
  | error e =>
    rw [hb]
    cases e with
    | exn => simp
    | interrupt => simp at h1
  | ok a =>
    rw [hb]
    exact ⟨by simpa using (hf a st1).1, by simpa using (hf a st1).2⟩

theorem tame_pure_cont : Tame (M.pure CycleRes.cont) := by
  intro st
  simp [M.pure]

theorem tame_pure_spin : Tame (M.pure CycleRes.spin) := by
  intro st
  simp [M.pure]

theorem tame_orRestart {rest : M CycleRes} (hr : Tame rest) (b : Bool) :
    Tame (orRestart b rest) := by
  cases b
  · exact tame_pure_cont
  · exact hr

theorem noIntr_fatE {env : LoopEnv} (henv : NoIntrEnv env) (name : String)
    (attempts : Nat) : NoIntr (fatE env name attempts) := by
  intro st
  simpa [fatE] using henv.1 st.nFat name

theorem capE_fst (env : LoopEnv) (st : LoopSt) : (capE env st).1 = env.cap st.nCap := by
  cases h : env.cap st.nCap <;> simp [capE, h]

theorem noIntr_tapE (x y : Nat) : NoIntr (tapE x y) := by
  intro st
  simp [tapE]

theorem noIntr_waitE (q : ℚ) : NoIntr (waitE q) := by
  intro st
  simp [waitE]

theorem noIntr_emitStart : NoIntr emitStart := by
  intro st
  simp [emitStart]

theorem noIntr_ftE (env : LoopEnv) (name : String) : NoIntr (ftE env name) := by
  intro st
  simp [ftE]

theorem noIntr_useE (env : LoopEnv) : NoIntr (useE env) := by
  intro st
  simp [useE]

theorem noIntr_scoped {env : LoopEnv} {body : Nat → M α} (henv : NoIntrEnv env)
    (hb : ∀ fr, NoIntr (body fr)) : NoIntr (scopedCapture env body) := by
  intro st
  show (scopedCapture env body st).1 ≠ _
  unfold scopedCapture
  rcases hc : capE env st with ⟨r, tr, st1⟩
  cases r with
  | error f =>
    have h2 := henv.2 st.nCap
    rw [← capE_fst, hc] at h2
    simpa using h2
  | ok frame => simpa using hb frame st1

theorem noIntr_catch {x : M α} (d : α) (hx : NoIntr x) : NoIntr (catchExnWith d x) := by
  intro st
  have h1 := hx st
  show (catchExnWith d x st).1 ≠ _
  unfold catchExnWith
  rcases hc : x st with ⟨r, tr, st1⟩
  rw [hc] at h1
  cases r with
  | error e =>
    cases e with
    | exn => simp
    | interrupt => simp at h1
  | ok a => simp

theorem noIntr_runFilter {env : LoopEnv} (henv : NoIntrEnv env) :
    NoIntr (runFilterSequenceE env) := by
  unfold runFilterSequenceE
  apply noIntr_bind (noIntr_tapE _ _)
  intro _
  apply noIntr_bind (noIntr_waitE _)
  intro _
  apply noIntr_bind (noIntr_tapE _ _)
  intro _
  apply noIntr_bind (noIntr_waitE _)
  intro _
  cases rarityCoords env.rarity with
  | none => exact noIntr_Mpure false
  | some rc =>
    cases specialityCoords env.speciality with
    | none => exact noIntr_Mpure false
    | some sc =>
      apply noIntr_bind (noIntr_tapE _ _)
      intro _
      apply noIntr_bind (noIntr_waitE _)
      intro _
      apply noIntr_bind (noIntr_tapE _ _)
      intro _
      apply noIntr_bind (noIntr_waitE _)
      intro _
      apply noIntr_bind (noIntr_fatE henv _ _)
      intro b
      cases b
      · exact noIntr_Mpure false
      · apply noIntr_bind (noIntr_waitE _)
        intro _
        exact noIntr_Mpure true

theorem noIntr_manual {env : LoopEnv} (henv : NoIntrEnv env) :
    NoIntr (manualChooseE env) := by
  unfold manualChooseE
  apply noIntr_bind (noIntr_fatE henv _ _)
  intro b1
  cases b1
  · exact noIntr_Mpure false
  · apply noIntr_bind (noIntr_fatE henv _ _)
    intro b2
    cases b2
    · apply noIntr_bind (noIntr_runFilter henv)
      intro fs
      cases fs
      · exact noIntr_Mpure false
      · exact noIntr_fatE henv _ _
    · exact noIntr_Mpure true

theorem noIntr_tpCharge {env : LoopEnv} (henv : NoIntrEnv env) :
    NoIntr (tpChargeE env) := by
  unfold tpChargeE
  apply noIntr_catch
  apply noIntr_bind (noIntr_fatE henv _ _)
  intro b1
  cases b1
  · exact noIntr_Mpure false
  · apply noIntr_bind (noIntr_waitE _)
    intro _
    apply noIntr_bind (noIntr_scoped henv ?_)
    · intro hit
      cases hit
      · exact noIntr_Mpure false
      · apply noIntr_bind (noIntr_waitE _)
        intro _
        apply noIntr_bind (noIntr_fatE henv _ _)
        intro b2
        cases b2
        · exact noIntr_Mpure false
        · apply noIntr_bind (noIntr_fatE henv _ _)
          intro b3
          cases b3
          · exact noIntr_Mpure false
          · apply noIntr_bind (noIntr_waitE _)
            intro _
            apply noIntr_bind (noIntr_fatE henv _ _)
            intro b4
            cases b4
            · exact noIntr_Mpure false
            · apply noIntr_bind (noIntr_waitE _)
              intro _
              exact noIntr_Mpure true
    · intro fr
      apply noIntr_bind (noIntr_useE env)
      intro cs
      cases cs with
      | nil => exact noIntr_Mpure false
      | cons c rest =>
        apply noIntr_bind (noIntr_tapE _ _)
        intro _
        exact noIntr_Mpure true

theorem noIntr_step6Loop {env : LoopEnv} (henv : NoIntrEnv env) :
    ∀ fuel, NoIntr (step6Loop env fuel) := by
  intro fuel
  induction fuel with
  | zero => exact noIntr_Mpure false
  | succ fuel ih =>
    show NoIntr (step6Loop env (fuel + 1))
    unfold step6Loop
    apply noIntr_bind (noIntr_fatE henv _ _)
    intro b
    cases b
    · exact noIntr_Mpure true
    · apply noIntr_bind (noIntr_waitE _)
      intro _
      apply noIntr_bind (noIntr_scoped henv ?_)
      · intro dec
        cases dec with
        | none => exact noIntr_Mpure true
        | some tc =>
          cases tc
          · exact noIntr_Mpure true
          · exact ih
      · intro fr
        apply noIntr_bind (noIntr_ftE env _)
        intro c
        cases c with
        | none => exact noIntr_Mpure none
        | some xy =>
          apply noIntr_bind (noIntr_tpCharge henv)
          intro tc
          exact noIntr_Mpure (some tc)

theorem noIntr_tapFive (x y : Nat) : NoIntr (tapFive x y) := by
  unfold tapFive
  apply noIntr_bind (noIntr_tapE _ _)
  intro _
  apply noIntr_bind (noIntr_waitE _)
  intro _
  apply noIntr_bind (noIntr_tapE _ _)
  intro _
  apply noIntr_bind (noIntr_waitE _)
  intro _
  apply noIntr_bind (noIntr_tapE _ _)
  intro _
  apply noIntr_bind (noIntr_waitE _)
  intro _
  apply noIntr_bind (noIntr_tapE _ _)
  intro _
  apply noIntr_bind (noIntr_waitE _)
  intro _
  apply noIntr_bind (noIntr_tapE _ _)
  intro _
  exact noIntr_waitE _

theorem noIntr_step145 {env : LoopEnv} (henv : NoIntrEnv env) :
    NoIntr (step145 env) := by
  unfold step145
  apply noIntr_scoped henv
  intro fr
  apply noIntr_bind (noIntr_ftE env _)
  intro c
  cases c with
  | none => exact noIntr_Mpure ()
  | some xy => exact noIntr_tapFive _ _

theorem noIntr_step12E {env : LoopEnv} (henv : NoIntrEnv env) :
    NoIntr (step12E env) := by
  unfold step12E
  apply noIntr_scoped henv
  intro fr
  apply noIntr_bind (noIntr_ftE env _)
  intro c
  cases c with
  | none => exact noIntr_Mpure ()
  | some xy =>
    apply noIntr_bind (noIntr_tapE _ _)
    intro _
    apply noIntr_bind (noIntr_waitE _)
    intro _
    apply noIntr_bind (noIntr_tapE _ _)
    intro _
    apply noIntr_bind (noIntr_waitE _)
    intro _
    apply noIntr_scoped henv
    intro fr2
    apply noIntr_bind (noIntr_ftE env _)
    intro c2
    cases c2 with
    | some ab =>
      apply noIntr_bind (noIntr_tapE _ _)
      intro _
      apply noIntr_bind (noIntr_waitE _)
      intro _
      exact noIntr_tapE _ _
    | none =>
      apply noIntr_bind (noIntr_ftE env _)
      intro c3
      cases c3 with
      | some cd => exact noIntr_tapE _ _
      | none =>
        apply noIntr_bind (noIntr_ftE env _)
        intro _
        exact noIntr_Mpure ()

theorem noIntr_step16Loop {env : LoopEnv} (henv : NoIntrEnv env) :
    ∀ fuel, NoIntr (step16Loop env fuel) := by
  intro fuel
  induction fuel with
  | zero => exact noIntr_Mpure false
  | succ fuel ih =>
    show NoIntr (step16Loop env (fuel + 1))
    unfold step16Loop
    apply noIntr_bind (noIntr_fatE henv _ _)
    intro b
    cases b
    · apply noIntr_bind (noIntr_step145 henv)
      intro _
      apply noIntr_bind (noIntr_fatE henv _ _)
      intro _
      exact ih
    · exact noIntr_Mpure true

theorem tame_seg17 {env : LoopEnv} (henv : NoIntrEnv env) : Tame (seg17 env) := by
  unfold seg17
  apply tame_bind (noIntr_fatE henv _ _)
  intro b
  apply tame_orRestart ?_ b
  apply tame_bind (noIntr_waitE _)
  intro _
  exact tame_pure_cont

theorem tame_seg16 {env : LoopEnv} (henv : NoIntrEnv env) (fuel : Nat) :
    Tame (seg16 env fuel) := by
  unfold seg16
  apply tame_bind (noIntr_step16Loop henv fuel)
  intro done
  cases done
  · exact tame_pure_spin
  · exact tame_seg17 henv

theorem tame_seg13 {env : LoopEnv} (henv : NoIntrEnv env) (fuel : Nat) :
    Tame (seg13 env fuel) := by
  unfold seg13
  apply tame_bind (noIntr_fatE henv _ _)
  intro b
  apply tame_orRestart ?_ b
  apply tame_bind (noIntr_waitE _)
  intro _
  apply tame_bind (noIntr_waitE _)
  intro _
  apply tame_bind (noIntr_step145 henv)
  intro _
  apply tame_bind (noIntr_fatE henv _ _)
  intro b2
  exact tame_orRestart (tame_seg16 henv fuel) b2

theorem tame_seg7 {env : LoopEnv} (henv : NoIntrEnv env) (fuel : Nat) :
    Tame (seg7 env fuel) := by
  unfold seg7
  apply tame_bind (noIntr_fatE henv _ _)
  intro b
  apply tame_orRestart ?_ b
  apply tame_bind (noIntr_waitE _)
  intro _
  apply tame_bind (noIntr_fatE henv _ _)
  intro b2
  apply tame_orRestart ?_ b2
  apply tame_bind (noIntr_waitE _)
  intro _
  apply tame_bind (noIntr_fatE henv _ _)
  intro b3
  apply tame_orRestart ?_ b3
  apply tame_bind (noIntr_waitE _)
  intro _
  apply tame_bind (noIntr_tapE _ _)
  intro _
  apply tame_bind (noIntr_step12E henv)
  intro _
  exact tame_seg13 henv fuel

theorem tame_seg6 {env : LoopEnv} (henv : NoIntrEnv env) (fuel : Nat) :
    Tame (seg6 env fuel) := by
  unfold seg6
  apply tame_bind (noIntr_step6Loop henv fuel)
  intro exited
  cases exited
  · exact tame_pure_spin
  · apply tame_bind (noIntr_fatE henv _ _)
    intro b
    exact tame_orRestart (tame_seg7 henv fuel) b

theorem tame_seg5 {env : LoopEnv} (henv : NoIntrEnv env)
    (hman : env.manualChoose = false) (fuel : Nat) : Tame (seg5 env fuel) := by
  unfold seg5
  rw [hman]
  exact tame_seg6 henv fuel

theorem tame_cycle {env : LoopEnv} (henv : NoIntrEnv env)
    (hman : env.manualChoose = false) (fuel : Nat) : Tame (cycleE env fuel) := by
  unfold cycleE
  apply tame_bind noIntr_emitStart
  intro _
  apply tame_bind (noIntr_fatE henv _ _)
  intro b1
  apply tame_orRestart ?_ b1
  apply tame_bind (noIntr_waitE _)
  intro _
  apply tame_bind (noIntr_fatE henv _ _)
  intro b2
  apply tame_orRestart ?_ b2
  apply tame_bind (noIntr_waitE _)
  intro _
  apply tame_bind (noIntr_fatE henv _ _)
  intro b3
  apply tame_orRestart ?_ b3
  apply tame_bind (noIntr_waitE _)
  intro _
  apply tame_bind (noIntr_fatE henv _ _)
  intro b4
  apply tame_orRestart ?_ b4
  apply tame_bind (noIntr_waitE _)
  intro _
  apply tame_bind (noIntr_fatE henv _ _)
  intro b5
  apply tame_orRestart ?_ b5
  apply tame_bind (noIntr_waitE _)
  intro _
  apply tame_bind (noIntr_fatE henv _ _)
  intro b6
  apply tame_orRestart ?_ b6
  apply tame_bind (noIntr_waitE _)
  intro _
  exact tame_seg5 henv hman fuel

/-- The trace of every computation starting with the cycle log begins with
the start-of-cycle event. -/
theorem emitStart_trace (f : Unit → M α) (st : LoopSt) :
    ((emitStart >>= f) st).2.1 = Ev.cycleStart :: (f () st).2.1 := by
  rw [M_bind_apply]
  simp [emitStart]

/-- C8: resilience of the main loop. With no external interrupt injected
and manual choosing disabled, (1) the loop never terminates — whatever
faults and phase failures the oracle injects, every fuel budget ends with
the loop still `running`; (2) a cycle that raises an ordinary exception is
caught at the top-level boundary: the loop appends exactly one fixed
ten-second cool-down wait after that cycle's partial trace and continues
with the remaining cycles from the post-fault state; and (3) every cycle
restarts from the initial phase — its trace opens with the
start-of-cycle event. -/
theorem c8_loop_resilience (env : LoopEnv)
    (hfat : ∀ n s, env.fat n s ≠ Except.error Fault.interrupt)
    (hcap : ∀ n, env.cap n ≠ Except.error Fault.interrupt)
    (hman : env.manualChoose = false) :
    (∀ fuel cfl st, (runCycles env fuel cfl st).1 = Outcome.running) ∧
    (∀ fuel cfl st tr st1, cycleE env cfl st = (Except.error Fault.exn, tr, st1) →
      runCycles env (fuel + 1) cfl st =
        ((runCycles env fuel cfl st1).1,
          tr ++ Ev.waitFor 10 :: (runCycles env fuel cfl st1).2)) ∧
    (∀ cfl st, ∃ tr1, (cycleE env cfl st).2.1 = Ev.cycleStart :: tr1) := by
  have henv : NoIntrEnv env := ⟨hfat, hcap⟩
  refine ⟨?_, ?_, ?_⟩
  · intro fuel
    induction fuel with
    | zero => intro cfl st; rfl
    | succ fuel ih =>
      intro cfl st
      have h1 := tame_cycle henv hman cfl st
      rcases hx : cycleE env cfl st with ⟨r, tr, st1⟩
      rw [hx] at h1
      cases r with
      | error e =>
        cases e with
        | exn => simp [runCycles, hx, ih cfl st1]
        | interrupt => simp at h1
      | ok c =>
        cases c with
        | cont => simp [runCycles, hx, ih cfl st1]
        | stop => simp at h1
        | spin => simp [runCycles, hx]
  · intro fuel cfl st tr st1 h
    simp [runCycles, h]
  · intro cfl st
    unfold cycleE
    exact ⟨_, emitStart_trace _ st⟩

/-- A concrete oracle where every locate-and-tap call raises an ordinary
exception, manual choosing disabled. -/
def envExn : LoopEnv :=
  { envManual with manualChoose := false, fat := fun _ _ => Except.error Fault.exn }

/-- Witness for C8 on the always-raising oracle: the loop is still running
after several cycles. -/
theorem c8_witness : (runCycles envExn 3 2 initSt).1 = Outcome.running :=
  (c8_loop_resilience envExn (fun n s => by simp [envExn])
    (fun n => by simp [envExn, envManual]) rfl).1 3 2 initSt

/-- A trace in which the captured frame ids are a permutation of the
deleted frame ids: every scratch frame created in it is also released in
it. -/
def BalTrace (tr : List Ev) : Prop := (capsOf tr).Perm (delsOf tr)

/-- A loop computation whose trace is balanced from every cursor, whatever
the outcome. -/
def BalM (x : M α) : Prop := ∀ st, BalTrace (x st).2.1

theorem balanced_nil : BalTrace [] := List.Perm.refl []

theorem balanced_append {a b : List Ev} (ha : BalTrace a) (hb : BalTrace b) :
    BalTrace (a ++ b) := by
  unfold BalTrace at *
  rw [capsOf_append, delsOf_append]
  exact ha.append hb

theorem balanced_wait {tr : List Ev} (q : ℚ) (h : BalTrace tr) :
    BalTrace (Ev.waitFor q :: tr) := by
  unfold BalTrace at *
  rwa [capsOf_wait, delsOf_wait]

theorem balM_Mpure (a : α) : BalM (M.pure a) := by
  intro st
  exact balanced_nil

theorem balM_bind {x : M α} {f : α → M β} (hx : BalM x) (hf : ∀ a, BalM (f a)) :
    BalM (x >>= f) := by
  intro st
  have h1 := hx st
  rcases hx2 : x st with ⟨r, tr, st1⟩
  rw [hx2] at h1
  show BalTrace ((x >>= f) st).2.1
  rw [M_bind_apply, hx2]
  cases r with
  | error e => exact h1
  | ok a => exact balanced_append h1 (hf a st1)

theorem balM_fatE (env : LoopEnv) (name : String) (attempts : Nat) :
    BalM (fatE env name attempts) := by
  intro st
  exact balanced_nil

theorem balM_tapE (x y : Nat) : BalM (tapE x y) := by
  intro st
  exact balanced_nil

theorem balM_waitE (q : ℚ) : BalM (waitE q) := by
  intro st
  exact balanced_nil

theorem balM_emitStart : BalM emitStart := by
  intro st
  exact balanced_nil

theorem balM_ftE (env : LoopEnv) (name : String) : BalM (ftE env name) := by
  intro st
  exact balanced_nil

theorem balM_useE (env : LoopEnv) : BalM (useE env) := by
  intro st
  exact balanced_nil

theorem balM_scoped {env : LoopEnv} {body : Nat → M α} (hb : ∀ fr, BalM (body fr)) :
    BalM (scopedCapture env body) := by
  intro st
  show BalTrace (scopedCapture env body st).2.1
  unfold scopedCapture
  unfold capE
  cases hc : env.cap st.nCap with
  | error f => exact balanced_nil
  | ok frame =>
    have h2 := hb frame { st with nCap := st.nCap + 1 }
    unfold BalTrace at *
    simp only [capsOf_append, delsOf_append, capsOf_capture, delsOf_capture,
      capsOf_delete, delsOf_delete, capsOf_nil, delsOf_nil, List.append_nil,
      List.nil_append, List.singleton_append]
    exact (h2.cons frame).trans (List.perm_append_singleton frame _).symm

theorem balM_catch {x : M α} (d : α) (hx : BalM x) : BalM (catchExnWith d x) := by
  intro st
  have h1 := hx st
  show BalTrace (catchExnWith d x st).2.1
  unfold catchExnWith
  rcases hc : x st with ⟨r, tr, st1⟩
  rw [hc] at h1
  cases r with
  | error e =>
    cases e with
    | exn => exact h1
    | interrupt => exact h1
  | ok a => exact h1

theorem balM_runFilter (env : LoopEnv) : BalM (runFilterSequenceE env) := by
  unfold runFilterSequenceE
  apply balM_bind (balM_tapE _ _)
  intro _
  apply balM_bind (balM_waitE _)
  intro _
  apply balM_bind (balM_tapE _ _)
  intro _
  apply balM_bind (balM_waitE _)
  intro _
  cases rarityCoords env.rarity with
  | none => exact balM_Mpure false
  | some rc =>
    cases specialityCoords env.speciality with
    | none => exact balM_Mpure false
    | some sc =>
      apply balM_bind (balM_tapE _ _)
      intro _
      apply balM_bind (balM_waitE _)
      intro _
      apply balM_bind (balM_tapE _ _)
      intro _
      apply balM_bind (balM_waitE _)
      intro _
      apply balM_bind (balM_fatE env _ _)
      intro b
      cases b
      · exact balM_Mpure false
      · apply balM_bind (balM_waitE _)
        intro _
        exact balM_Mpure true

theorem balM_manual (env : LoopEnv) : BalM (manualChooseE env) := by
  unfold manualChooseE
  apply balM_bind (balM_fatE env _ _)
  intro b1
  cases b1
  · exact balM_Mpure false
  · apply balM_bind (balM_fatE env _ _)
    intro b2
    cases b2
    · apply balM_bind (balM_runFilter env)
      intro fs
      cases fs
      · exact balM_Mpure false
      · exact balM_fatE env _ _
    · exact balM_Mpure true

theorem balM_tpCharge (env : LoopEnv) : BalM (tpChargeE env) := by
  unfold tpChargeE
  apply balM_catch
  apply balM_bind (balM_fatE env _ _)
  intro b1
  cases b1
  · exact balM_Mpure false
  · apply balM_bind (balM_waitE _)
    intro _
    apply balM_bind (balM_scoped ?_)
    · intro hit
      cases hit
      · exact balM_Mpure false
      · apply balM_bind (balM_waitE _)
        intro _
        apply balM_bind (balM_fatE env _ _)
        intro b2
        cases b2
        · exact balM_Mpure false
        · apply balM_bind (balM_fatE env _ _)
          intro b3
          cases b3
          · exact balM_Mpure false
          · apply balM_bind (balM_waitE _)
            intro _
            apply balM_bind (balM_fatE env _ _)
            intro b4
            cases b4
            · exact balM_Mpure false
            · apply balM_bind (balM_waitE _)
              intro _
              exact balM_Mpure true
    · intro fr
      apply balM_bind (balM_useE env)
      intro cs
      cases cs with
      | nil => exact balM_Mpure false
      | cons c rest =>
        apply balM_bind (balM_tapE _ _)
        intro _
        exact balM_Mpure true

theorem balM_step6Loop (env : LoopEnv) : ∀ fuel, BalM (step6Loop env fuel) := by
  intro fuel
  induction fuel with
  | zero => exact balM_Mpure false
  | succ fuel ih =>
    show BalM (step6Loop env (fuel + 1))
    unfold step6Loop
    apply balM_bind (balM_fatE env _ _)
    intro b
    cases b
    · exact balM_Mpure true
    · apply balM_bind (balM_waitE _)
      intro _
      apply balM_bind (balM_scoped ?_)
      · intro dec
        cases dec with
        | none => exact balM_Mpure true
        | some tc =>
          cases tc
          · exact balM_Mpure true
          · exact ih
      · intro fr
        apply balM_bind (balM_ftE env _)
        intro c
        cases c with
        | none => exact balM_Mpure none
        | some xy =>
          apply balM_bind (balM_tpCharge env)
          intro tc
          exact balM_Mpure (some tc)

theorem balM_tapFive (x y : Nat) : BalM (tapFive x y) := by
  unfold tapFive
  apply balM_bind (balM_tapE _ _)
  intro _
  apply balM_bind (balM_waitE _)
  intro _
  apply balM_bind (balM_tapE _ _)
  intro _
  apply balM_bind (balM_waitE _)
  intro _
  apply balM_bind (balM_tapE _ _)
  intro _
  apply balM_bind (balM_waitE _)
  intro _
  apply balM_bind (balM_tapE _ _)
  intro _
  apply balM_bind (balM_waitE _)
  intro _
  apply balM_bind (balM_tapE _ _)
  intro _
  exact balM_waitE _

theorem balM_step145 (env : LoopEnv) : BalM (step145 env) := by
  unfold step145
  apply balM_scoped
  intro fr
  apply balM_bind (balM_ftE env _)
  intro c
  cases c with
  | none => exact balM_Mpure ()
  | some xy => exact balM_tapFive _ _

theorem balM_step12E (env : LoopEnv) : BalM (step12E env) := by
  unfold step12E
  apply balM_scoped
  intro fr
  apply balM_bind (balM_ftE env _)
  intro c
  cases c with
  | none => exact balM_Mpure ()
  | some xy =>
    apply balM_bind (balM_tapE _ _)
    intro _
    apply balM_bind (balM_waitE _)
    intro _
    apply balM_bind (balM_tapE _ _)
    intro _
    apply balM_bind (balM_waitE _)
    intro _
    apply balM_scoped
    intro fr2
    apply balM_bind (balM_ftE env _)
    intro c2
    cases c2 with
    | some ab =>
      apply balM_bind (balM_tapE _ _)
      intro _
      apply balM_bind (balM_waitE _)
      intro _
      exact balM_tapE _ _
    | none =>
      apply balM_bind (balM_ftE env _)
      intro c3
      cases c3 with
      | some cd => exact balM_tapE _ _
      | none =>
        apply balM_bind (balM_ftE env _)
        intro _
        exact balM_Mpure ()

theorem balM_step16Loop (env : LoopEnv) : ∀ fuel, BalM (step16Loop env fuel) := by
  intro fuel
  induction fuel with
  | zero => exact balM_Mpure false
  | succ fuel ih =>
    show BalM (step16Loop env (fuel + 1))
    unfold step16Loop
    apply balM_bind (balM_fatE env _ _)
    intro b
    cases b
    · apply balM_bind (balM_step145 env)
      intro _
      apply balM_bind (balM_fatE env _ _)
      intro _
      exact ih
    · exact balM_Mpure true

theorem balM_orRestart {rest : M CycleRes} (hr : BalM rest) (b : Bool) :
    BalM (orRestart b rest) := by
  cases b
  · exact balM_Mpure CycleRes.cont
  · exact hr

theorem balM_seg17 (env : LoopEnv) : BalM (seg17 env) := by
  unfold seg17
  apply balM_bind (balM_fatE env _ _)
  intro b
  apply balM_orRestart ?_ b
  apply balM_bind (balM_waitE _)
  intro _
  exact balM_Mpure CycleRes.cont

theorem balM_seg16 (env : LoopEnv) (fuel : Nat) : BalM (seg16 env fuel) := by
  unfold seg16
  apply balM_bind (balM_step16Loop env fuel)
  intro done
  cases done
  · exact balM_Mpure CycleRes.spin
  · exact balM_seg17 env

theorem balM_seg13 (env : LoopEnv) (fuel : Nat) : BalM (seg13 env fuel) := by
  unfold seg13
  apply balM_bind (balM_fatE env _ _)
  intro b
  apply balM_orRestart ?_ b
  apply balM_bind (balM_waitE _)
  intro _
  apply balM_bind (balM_waitE _)
  intro _
  apply balM_bind (balM_step145 env)
  intro _
  apply balM_bind (balM_fatE env _ _)
  intro b2
  exact balM_orRestart (balM_seg16 env fuel) b2

theorem balM_seg7 (env : LoopEnv) (fuel : Nat) : BalM (seg7 env fuel) := by
  unfold seg7
  apply balM_bind (balM_fatE env _ _)
  intro b
  apply balM_orRestart ?_ b
  apply balM_bind (balM_waitE _)
  intro _
  apply balM_bind (balM_fatE env _ _)
  intro b2
  apply balM_orRestart ?_ b2
  apply balM_bind (balM_waitE _)
  intro _
  apply balM_bind (balM_fatE env _ _)
  intro b3
  apply balM_orRestart ?_ b3
  apply balM_bind (balM_waitE _)
  intro _
  apply balM_bind (balM_tapE _ _)
  intro _
  apply balM_bind (balM_step12E env)
  intro _
  exact balM_seg13 env fuel

theorem balM_seg6 (env : LoopEnv) (fuel : Nat) : BalM (seg6 env fuel) := by
  unfold seg6
  apply balM_bind (balM_step6Loop env fuel)
  intro exited
  cases exited
  · exact balM_Mpure CycleRes.spin
  · apply balM_bind (balM_fatE env _ _)
    intro b
    exact balM_orRestart (balM_seg7 env fuel) b

theorem balM_seg5 (env : LoopEnv) (fuel : Nat) : BalM (seg5 env fuel) := by
  unfold seg5
  cases env.manualChoose
  · exact balM_seg6 env fuel
  · apply balM_bind (balM_manual env)
    intro mc
    cases mc
    · exact balM_Mpure CycleRes.stop
    · exact balM_seg6 env fuel

theorem balM_cycle (env : LoopEnv) (fuel : Nat) : BalM (cycleE env fuel) := by
  unfold cycleE
  apply balM_bind balM_emitStart
  intro _
  apply balM_bind (balM_fatE env _ _)
  intro b1
  apply balM_orRestart ?_ b1
  apply balM_bind (balM_waitE _)
  intro _
  apply balM_bind (balM_fatE env _ _)
  intro b2
  apply balM_orRestart ?_ b2
  apply balM_bind (balM_waitE _)
  intro _
  apply balM_bind (balM_fatE env _ _)
  intro b3
  apply balM_orRestart ?_ b3
  apply balM_bind (balM_waitE _)
  intro _
  apply balM_bind (balM_fatE env _ _)
  intro b4
  apply balM_orRestart ?_ b4
  apply balM_bind (balM_waitE _)
  intro _
  apply balM_bind (balM_fatE env _ _)
  intro b5
  apply balM_orRestart ?_ b5
  apply balM_bind (balM_waitE _)
  intro _
  apply balM_bind (balM_fatE env _ _)
  intro b6
  apply balM_orRestart ?_ b6
  apply balM_bind (balM_waitE _)
  intro _
  exact balM_seg5 env fuel

/-- The whole loop trace is balanced: every cycle's trace is balanced, the
cool-down waits create no frames. -/
theorem runCycles_balanced (env : LoopEnv) :
    ∀ fuel cfl st, BalTrace (runCycles env fuel cfl st).2 := by
  intro fuel
  induction fuel with
  | zero => intro cfl st; exact balanced_nil
  | succ fuel ih =>
    intro cfl st
    have hb := balM_cycle env cfl st
    rcases hx : cycleE env cfl st with ⟨r, tr, st1⟩
    rw [hx] at hb
    cases r with
    | error e =>
      cases e with
      | exn =>
        show BalTrace (runCycles env (fuel + 1) cfl st).2
        simp only [runCycles, hx]
        exact balanced_append hb (balanced_wait 10 (ih cfl st1))
      | interrupt =>
        show BalTrace (runCycles env (fuel + 1) cfl st).2
        simp only [runCycles, hx]
        exact hb
    | ok c =>
      cases c with
      | cont =>
        show BalTrace (runCycles env (fuel + 1) cfl st).2
        simp only [runCycles, hx]
        exact balanced_append hb (ih cfl st1)
      | stop =>
        show BalTrace (runCycles env (fuel + 1) cfl st).2
        simp only [runCycles, hx]
        exact hb
      | spin =>
        show BalTrace (runCycles env (fuel + 1) cfl st).2
        simp only [runCycles, hx]
        exact hb

/-- C9: no scratch frame outlives the operation that created it. In the
retry primitive the captured frame ids equal the deleted frame ids on
every exit path (success, failure, or a fault after the capture), and over
the whole automation loop — the sequencer's peeks and the TP-charge
capture included — the multiset of captured frames equals the multiset of
deleted frames, whatever the oracle injects. -/
theorem c9_frame_cleanup :
    (∀ (env : FTEnv) (n : Nat) (w : ℚ),
        capsOf (find_and_tap env n w).1 = delsOf (find_and_tap env n w).1) ∧
    (∀ (env : LoopEnv) (fuel cfl : Nat) (st : LoopSt),
        (capsOf (runCycles env fuel cfl st).2).Perm (delsOf (runCycles env fuel cfl st).2)) :=
  ⟨fun env n w => findAndTapAux_caps_eq_dels env n w n 0,
   fun env fuel cfl st => runCycles_balanced env fuel cfl st⟩
